import Mathlib

/-!
A shallow embedding of the prompt-storage service in `backend/main.py`:
a FastAPI façade over a Neo4j graph of `Prompt` and `Tag` nodes connected
by `HAS_TAG` edges, with a lazily created full-text index over prompt text.

The graph store is modelled as explicit lists of nodes and edges plus an
index-existence flag; each Cypher statement of the source becomes a Lean
function on this state.  Backend transaction failure is modelled by an
explicit flag on the transaction runner, matching the driver contract that
a failed transaction commits nothing and raises to the caller.
-/

namespace PromptStore

/-- A Prompt node, as created by the Cypher clause
CREATE (p:Prompt \x7bid: $id, text: $text, source: $source\x7d). -/
structure PromptNode where
  id : String
  text : String
  source : Option String
  deriving DecidableEq, Repr

/-- A Tag node, keyed by its name, as written by MERGE (t:Tag \x7bname: tag\x7d). -/
structure TagNode where
  name : String
  deriving DecidableEq, Repr

/-- A directed HAS_TAG edge from a Prompt (by id) to a Tag (by name). -/
structure HasTagEdge where
  promptId : String
  tagName : String
  deriving DecidableEq, Repr

/-- The graph store state: Prompt nodes, Tag nodes, HAS_TAG edges, and
whether the full-text index promptTextIndex exists. -/
structure Store where
  prompts : List PromptNode
  tags : List TagNode
  edges : List HasTagEdge
  indexExists : Bool
  deriving DecidableEq, Repr

/-- A store with no nodes, no edges and no index. -/
def emptyStore : Store := ⟨[], [], [], false⟩

/-! ## Entity Writer: the transaction function of `_create_prompt` -/

/-- The clause MERGE (t:Tag \x7bname: tag\x7d): reuse the Tag node with this
name when one exists, otherwise create it. -/
def mergeTag (s : Store) (name : String) : Store :=
  if s.tags.any (fun t => t.name == name) then s
  else { s with tags := s.tags ++ [⟨name⟩] }

/-- The clause MERGE (p)-[:HAS_TAG]->(t): create the edge unless it
already exists. -/
def mergeEdge (s : Store) (pid tagName : String) : Store :=
  if s.edges.any (fun e => e.promptId == pid && e.tagName == tagName) then s
  else { s with edges := s.edges ++ [⟨pid, tagName⟩] }

/-- The clause FOREACH (tag IN $tags | MERGE (t:Tag \x7bname: tag\x7d)
MERGE (p)-[:HAS_TAG]->(t)): fold the two merges over the tag list. -/
def addTags (s : Store) (pid : String) (tags : List String) : Store :=
  tags.foldl (fun acc tag => mergeEdge (mergeTag acc tag) pid tag) s

/-- The result extraction of `_create_prompt`: the driver call
result.single() followed by the expression
record["id"] if record else None. -/
def createTxResult (rows : List String) : Option String :=
  match rows.head? with
  | some v => some v
  | none => none

/-- The Cypher statement of `_create_prompt` run against the store: create
the Prompt node, merge the tags and edges, and RETURN p.id AS id as the
result rows. -/
def createPromptRows (s : Store) (pid text : String) (source : Option String)
    (tags : List String) : Store × List String :=
  let s1 : Store := { s with prompts := s.prompts ++ [⟨pid, text, source⟩] }
  (addTags s1 pid tags, [pid])

/-- The full transaction function `_create_prompt`: run the create
statement and extract the returned id from its single record. -/
def createPromptTx (s : Store) (pid text : String) (source : Option String)
    (tags : List String) : Store × Option String :=
  let p := createPromptRows s pid text source tags
  (p.1, createTxResult p.2)

/-! ## Entity Reader: the transaction function of `_get_prompt` -/

/-- The clause MATCH (p:Prompt \x7bid: $id\x7d) combined with the driver
call .single(): the first Prompt node carrying this id, if any. -/
def findPrompt (s : Store) (pid : String) : Option PromptNode :=
  s.prompts.find? (fun p => p.id == pid)

/-- The clause OPTIONAL MATCH (p)-[:HAS_TAG]->(t:Tag) with
collect(t.name) AS tags: the tag names of every HAS_TAG edge leaving the
prompt. -/
def collectTagNames (s : Store) (pid : String) : List String :=
  (s.edges.filter (fun e => e.promptId == pid)).map (fun e => e.tagName)

/-- The record returned by `_get_prompt` on a hit: id, text, source and
the collected tag names. -/
structure PromptRecord where
  id : String
  text : String
  source : Option String
  tags : List String
  deriving DecidableEq, Repr

/-- The read transaction function `_get_prompt`: none when no Prompt node
matches the id, otherwise the prompt record with its tags. -/
def getPromptTx (s : Store) (pid : String) : Option PromptRecord :=
  match findPrompt s pid with
  | some p => some ⟨p.id, p.text, p.source, collectTagNames s pid⟩
  | none => none

/-! ## Search Index Manager and Search Executor: `_search_prompts` -/

/-- Modelled from the spec: splitting a character list at space
characters, the tokenization step of the external full-text engine. -/
def splitOnSpace : List Char → List (List Char)
  | [] => [[]]
  | c :: rest =>
    if c = ' ' then [] :: splitOnSpace rest
    else
      match splitOnSpace rest with
      | [] => [[c]]
      | w :: ws => (c :: w) :: ws

/-- Modelled from the spec: the external full-text engine tokenizes a
string into whitespace-separated non-empty terms ("the underlying
engine's term-matching and tokenization rules apply — this subsystem does
not itself tokenize or stem"). -/
def tokenize (s : String) : List String :=
  ((splitOnSpace s.data).map (fun w => String.mk w)).filter (fun w => w ≠ "")

/-- Modelled from the spec: the terms of the caller-supplied query. -/
def termsOf (q : String) : List String := tokenize q

/-- Modelled from the spec: the words of a stored text, as the engine
tokenizes it. -/
def wordsOf (text : String) : List String := tokenize text

/-- Modelled from the spec: the engine's relevance score of a text for a
query, here the number of query terms occurring as words of the text; a
node matches exactly when its score is positive.  The engine's score is a
float that is "opaque (useful only for relative ranking)", so a natural
number is an adequate model of it. -/
def ftScore (q text : String) : Nat :=
  ((termsOf q).filter (fun t => (wordsOf text).contains t)).length

/-- The statement CREATE FULLTEXT INDEX promptTextIndex IF NOT EXISTS: a
no-op when the index already exists, otherwise it records the index as
existing; in neither case an error. -/
def ensureIndex (s : Store) : Store :=
  if s.indexExists then s else { s with indexExists := true }

/-- One row yielded by db.index.fulltext.queryNodes: YIELD node, score. -/
structure MatchRow where
  node : PromptNode
  score : Nat
  deriving DecidableEq, Repr

/-- The call db.index.fulltext.queryNodes('promptTextIndex', $q): every
Prompt node with positive relevance score, paired with its score. -/
def queryNodes (s : Store) (q : String) : List MatchRow :=
  (s.prompts.filter (fun p => 0 < ftScore q p.text)).map
    (fun p => ⟨p, ftScore q p.text⟩)

/-- The ordering relation of ORDER BY score DESC: a row may precede
another exactly when its score is at least as large. -/
def rowGE (a b : MatchRow) : Prop := b.score ≤ a.score

instance : DecidableRel rowGE := fun a b =>
  inferInstanceAs (Decidable (b.score ≤ a.score))

instance : IsTotal MatchRow rowGE :=
  ⟨fun a b => Nat.le_total b.score a.score⟩

instance : IsTrans MatchRow rowGE :=
  ⟨fun _ _ _ hab hbc => Nat.le_trans hbc hab⟩

/-- One entry of the list returned by `_search_prompts`: the dictionary
with id, text, source and score built from a returned record. -/
structure SearchResult where
  id : String
  text : String
  source : Option String
  score : Nat
  deriving DecidableEq, Repr

/-- The transaction function `_search_prompts`: ensure the full-text index
exists, run the ranked query with ORDER BY score DESC LIMIT 10, and map
every returned record to a result dictionary. -/
def searchPromptsTx (s : Store) (q : String) : Store × List SearchResult :=
  let s1 := ensureIndex s
  let rows := (List.insertionSort rowGE (queryNodes s1 q)).take 10
  (s1, rows.map (fun r => ⟨r.node.id, r.node.text, r.node.source, r.score⟩))

/-! ## Request façade: validation, endpoints, routing -/

/-- The failures a request can surface: a FastAPI validation rejection
issued before the handler body runs, an HTTPException raised by a handler,
or a backend store error propagating uncaught out of a handler. -/
inductive Failure where
  | validation
  | notFound (detail : String)
  | storeFailure
  deriving DecidableEq, Repr

/-- A raw create request body; a field whose Option is none is absent from
the JSON payload. -/
structure CreatePayload where
  text : Option String
  source : Option String
  tags : Option (List String)
  deriving DecidableEq, Repr

/-- The pydantic model PromptCreate: text is a required string, source and
tags default to None. -/
structure PromptCreate where
  text : String
  source : Option String
  tags : Option (List String)
  deriving DecidableEq, Repr

/-- Pydantic validation of a request body against PromptCreate: a payload
missing the text field is rejected; any string value of text, the empty
string included, is accepted as is. -/
def validatePromptCreate (payload : CreatePayload) : Option PromptCreate :=
  match payload.text with
  | some t => some ⟨t, payload.source, payload.tags⟩
  | none => none

/-- The observable outcome of one endpoint call: the response, the store
afterwards, and whether a driver session was acquired for the call. -/
structure Outcome (α : Type) where
  response : Except Failure α
  store : Store
  sessionAcquired : Bool
  deriving Repr

/-- The body of the create endpoint response: the dictionary with the
single key id whose value may be null. -/
structure CreateResponse where
  id : Option String
  deriving DecidableEq, Repr

/-- The transaction runner session.write_transaction of the driver: the
transaction function is applied atomically and committed, or — when the
backend fails, modelled by the fail flag — nothing of it is committed, the
store is left unchanged and the error is raised to the caller. -/
def writeTransaction (s : Store) (fail : Bool) (txFn : Store → Store × α) :
    Store × Except Failure α :=
  if fail then (s, Except.error Failure.storeFailure)
  else
    let p := txFn s
    (p.1, Except.ok p.2)

/-- Assembly of the create endpoint response from the transaction result:
the handler returns the dictionary id: created_id with success status,
also when created_id is None. -/
def createResponseOf (createdId : Option String) : Except Failure CreateResponse :=
  Except.ok ⟨createdId⟩

/-- The handler create_prompt of POST /prompts: pydantic validation, then
a session is acquired and one write transaction creates the prompt with
tags prompt.tags or [], then the id is returned; a transaction error
propagates uncaught. -/
def createPromptEndpoint (s : Store) (fail : Bool) (pid : String)
    (payload : CreatePayload) : Outcome CreateResponse :=
  match validatePromptCreate payload with
  | none => ⟨Except.error Failure.validation, s, false⟩
  | some prompt =>
    let tags := prompt.tags.getD []
    let p := writeTransaction s fail
      (fun st => createPromptTx st pid prompt.text prompt.source tags)
    match p.2 with
    | Except.ok createdId => ⟨createResponseOf createdId, p.1, true⟩
    | Except.error e => ⟨Except.error e, p.1, true⟩

/-- The handler get_prompt of GET /prompts/\x7bprompt_id\x7d: a session is
acquired, the read transaction runs, and a missing prompt is translated
into HTTPException(status_code=404, detail="Prompt not found"). -/
def getPromptEndpoint (s : Store) (pid : String) : Outcome PromptRecord :=
  match getPromptTx s pid with
  | some record => ⟨Except.ok record, s, true⟩
  | none => ⟨Except.error (Failure.notFound "Prompt not found"), s, true⟩

/-- The handler search_prompts of GET /prompts/search: q is a required
query parameter, so a request without it is rejected by FastAPI before
the handler body runs; otherwise a session is acquired and the search
transaction result is returned. -/
def searchPromptsEndpoint (s : Store) (q : Option String) :
    Outcome (List SearchResult) :=
  match q with
  | none => ⟨Except.error Failure.validation, s, false⟩
  | some qs =>
    let p := searchPromptsTx s qs
    ⟨Except.ok p.2, p.1, true⟩

/-- An HTTP method of the service interface. -/
inductive Method where
  | get
  | post
  deriving DecidableEq, Repr

/-- The three registered handlers of the application. -/
inductive Handler where
  | createPrompt
  | getPrompt
  | searchPrompts
  deriving DecidableEq, Repr

/-- One segment of a route pattern: a literal segment or a path
parameter. -/
inductive Seg where
  | lit (s : String)
  | param (name : String)
  deriving DecidableEq, Repr

/-- Whether one pattern segment matches one path segment: a literal
matches only itself, a parameter matches anything. -/
def matchSeg : Seg → String → Bool
  | Seg.lit l, s => l == s
  | Seg.param _, _ => true

/-- Whether a route pattern matches a request path, segment by segment. -/
def matchPath : List Seg → List String → Bool
  | [], [] => true
  | p :: ps, s :: ss => matchSeg p s && matchPath ps ss
  | _, _ => false

/-- The value bound to the first path parameter of a pattern by a matching
path, as FastAPI binds prompt_id. -/
def extractParam : List Seg → List String → Option String
  | Seg.param _ :: _, s :: _ => some s
  | _ :: ps, _ :: ss => extractParam ps ss
  | _, _ => none

/-- A registered route: method, path pattern and handler. -/
structure RouteEntry where
  method : Method
  pattern : List Seg
  handler : Handler
  deriving DecidableEq, Repr

/-- The pattern of the get-by-id route /prompts/\x7bprompt_id\x7d. -/
def getPromptPattern : List Seg := [Seg.lit "prompts", Seg.param "prompt_id"]

/-- The application route table in registration order: POST /prompts, then
GET /prompts/\x7bprompt_id\x7d, then GET /prompts/search, matching the
order of the decorated handlers in main.py. -/
def routeTable : List RouteEntry :=
  [⟨Method.post, [Seg.lit "prompts"], Handler.createPrompt⟩,
   ⟨Method.get, getPromptPattern, Handler.getPrompt⟩,
   ⟨Method.get, [Seg.lit "prompts", Seg.lit "search"], Handler.searchPrompts⟩]

/-- FastAPI request dispatch: the first registered route whose method and
pattern match the request wins. -/
def dispatch (m : Method) (path : List String) : Option Handler :=
  (routeTable.find? (fun r => r.method == m && matchPath r.pattern path)).map
    RouteEntry.handler

/-! ## Sequences of create operations -/

/-- The inputs of one create transaction. -/
structure CreateOp where
  pid : String
  text : String
  source : Option String
  tags : List String
  deriving DecidableEq, Repr

/-- Running a sequence of create transactions against the store. -/
def runCreates (s : Store) : List CreateOp → Store
  | [] => s
  | op :: rest => runCreates (createPromptTx s op.pid op.text op.source op.tags).1 rest

/-- The invariant that Tag node names are unique in the store. -/
def tagNamesNodup (s : Store) : Prop := (s.tags.map TagNode.name).Nodup

/-! ## Structural lemmas about the write path -/

theorem mergeTag_prompts (s : Store) (n : String) :
    (mergeTag s n).prompts = s.prompts := by
  unfold mergeTag; split <;> rfl

theorem mergeTag_edges (s : Store) (n : String) :
    (mergeTag s n).edges = s.edges := by
  unfold mergeTag; split <;> rfl

theorem mergeEdge_prompts (s : Store) (pid t : String) :
    (mergeEdge s pid t).prompts = s.prompts := by
  unfold mergeEdge; split <;> rfl

theorem mergeEdge_tags (s : Store) (pid t : String) :
    (mergeEdge s pid t).tags = s.tags := by
  unfold mergeEdge; split <;> rfl

theorem addTags_cons (s : Store) (pid t : String) (ts : List String) :
    addTags s pid (t :: ts) = addTags (mergeEdge (mergeTag s t) pid t) pid ts := rfl

theorem addTags_prompts (s : Store) (pid : String) (tags : List String) :
    (addTags s pid tags).prompts = s.prompts := by
  induction tags generalizing s with
  | nil => rfl
  | cons t ts ih =>
    rw [addTags_cons, ih, mergeEdge_prompts, mergeTag_prompts]

theorem mem_tags_mergeTag {x : TagNode} (s : Store) (n : String) (h : x ∈ s.tags) :
    x ∈ (mergeTag s n).tags := by
  unfold mergeTag; split
  · exact h
  · exact List.mem_append_left _ h

theorem mergeTag_mem_self (s : Store) (n : String) :
    TagNode.mk n ∈ (mergeTag s n).tags := by
  unfold mergeTag; split
  · next hany =>
    rcases List.any_eq_true.mp hany with ⟨t, ht, heq⟩
    have hname : t.name = n := by simpa using heq
    have ht2 : t = TagNode.mk n := by cases t; simpa using hname
    rw [← ht2]; exact ht
  · exact List.mem_append_right _ (by simp)

theorem mem_edges_mergeEdge {e : HasTagEdge} (s : Store) (pid t : String)
    (h : e ∈ s.edges) : e ∈ (mergeEdge s pid t).edges := by
  unfold mergeEdge; split
  · exact h
  · exact List.mem_append_left _ h

theorem mergeEdge_mem_self (s : Store) (pid t : String) :
    HasTagEdge.mk pid t ∈ (mergeEdge s pid t).edges := by
  unfold mergeEdge; split
  · next hany =>
    rcases List.any_eq_true.mp hany with ⟨e, he, heq⟩
    have heq2 : e.promptId = pid ∧ e.tagName = t := by simpa using heq
    have he2 : e = HasTagEdge.mk pid t := by
      cases e; simp only [HasTagEdge.mk.injEq]; exact heq2
    rw [← he2]; exact he
  · exact List.mem_append_right _ (by simp)

theorem mem_tags_addTags {x : TagNode} (s : Store) (pid : String)
    (tags : List String) (h : x ∈ s.tags) : x ∈ (addTags s pid tags).tags := by
  induction tags generalizing s with
  | nil => exact h
  | cons t ts ih =>
    rw [addTags_cons]
    apply ih
    rw [mergeEdge_tags]
    exact mem_tags_mergeTag _ _ h

theorem mem_edges_addTags {e : HasTagEdge} (s : Store) (pid : String)
    (tags : List String) (h : e ∈ s.edges) : e ∈ (addTags s pid tags).edges := by
  induction tags generalizing s with
  | nil => exact h
  | cons t ts ih =>
    rw [addTags_cons]
    apply ih
    apply mem_edges_mergeEdge
    rw [mergeTag_edges]
    exact h

theorem addTags_tag_mem (s : Store) (pid : String) (tags : List String)
    {t : String} (h : t ∈ tags) : TagNode.mk t ∈ (addTags s pid tags).tags := by
  induction tags generalizing s with
  | nil => cases h
  | cons a ts ih =>
    rw [addTags_cons]
    rcases List.mem_cons.mp h with h1 | h2
    · subst h1
      apply mem_tags_addTags
      rw [mergeEdge_tags]
      exact mergeTag_mem_self _ _
    · exact ih _ h2

theorem addTags_edge_mem (s : Store) (pid : String) (tags : List String)
    {t : String} (h : t ∈ tags) : HasTagEdge.mk pid t ∈ (addTags s pid tags).edges := by
  induction tags generalizing s with
  | nil => cases h
  | cons a ts ih =>
    rw [addTags_cons]
    rcases List.mem_cons.mp h with h1 | h2
    · subst h1
      apply mem_edges_addTags
      exact mergeEdge_mem_self _ _ _
    · exact ih _ h2

/-! ## Lemmas about the tag names a read collects -/

theorem collectTagNames_mergeTag (s : Store) (n pid : String) :
    collectTagNames (mergeTag s n) pid = collectTagNames s pid := by
  unfold collectTagNames
  rw [mergeTag_edges]

theorem mergeEdge_any_iff (s : Store) (pid t : String) :
    (s.edges.any fun e => e.promptId == pid && e.tagName == t) = true ↔
      t ∈ collectTagNames s pid := by
  simp only [collectTagNames, List.any_eq_true, List.mem_map, List.mem_filter,
    Bool.and_eq_true, beq_iff_eq]
  constructor
  · rintro ⟨e, he, h1, h2⟩
    exact ⟨e, ⟨he, h1⟩, h2⟩
  · rintro ⟨e, ⟨he, h1⟩, h2⟩
    exact ⟨e, he, h1, h2⟩

theorem collectTagNames_mergeEdge (s : Store) (pid t : String) :
    collectTagNames (mergeEdge s pid t) pid =
      if t ∈ collectTagNames s pid then collectTagNames s pid
      else collectTagNames s pid ++ [t] := by
  unfold mergeEdge
  by_cases hmem : t ∈ collectTagNames s pid
  · rw [if_pos ((mergeEdge_any_iff s pid t).mpr hmem), if_pos hmem]
  · rw [if_neg (fun hc => hmem ((mergeEdge_any_iff s pid t).mp hc)), if_neg hmem]
    unfold collectTagNames
    simp

theorem mem_collectTagNames_mergeEdge (s : Store) (pid t x : String) :
    x ∈ collectTagNames (mergeEdge s pid t) pid ↔
      x ∈ collectTagNames s pid ∨ x = t := by
  rw [collectTagNames_mergeEdge]
  by_cases hmem : t ∈ collectTagNames s pid
  · rw [if_pos hmem]
    constructor
    · exact Or.inl
    · rintro (h | h)
      · exact h
      · rw [h]; exact hmem
  · rw [if_neg hmem]
    simp

theorem mem_collectTagNames_addTags (s : Store) (pid : String)
    (tags : List String) (x : String) :
    x ∈ collectTagNames (addTags s pid tags) pid ↔
      x ∈ collectTagNames s pid ∨ x ∈ tags := by
  induction tags generalizing s with
  | nil => simp [addTags]
  | cons a ts ih =>
    rw [addTags_cons, ih, mem_collectTagNames_mergeEdge, collectTagNames_mergeTag]
    simp only [List.mem_cons]
    tauto

theorem nodup_collectTagNames_addTags (s : Store) (pid : String)
    (tags : List String) (h : (collectTagNames s pid).Nodup) :
    (collectTagNames (addTags s pid tags) pid).Nodup := by
  induction tags generalizing s with
  | nil => exact h
  | cons a ts ih =>
    rw [addTags_cons]
    apply ih
    rw [collectTagNames_mergeEdge, collectTagNames_mergeTag]
    by_cases hmem : a ∈ collectTagNames s pid
    · rw [if_pos hmem]; exact h
    · rw [if_neg hmem]
      simp [List.nodup_append, h, hmem]

/-! ## Lemmas about Tag node name uniqueness -/

theorem tagNamesNodup_mergeTag (s : Store) (n : String) (h : tagNamesNodup s) :
    tagNamesNodup (mergeTag s n) := by
  unfold tagNamesNodup mergeTag at *
  split
  · exact h
  · next hany =>
    have hnotin : n ∉ s.tags.map TagNode.name := by
      intro hmem
      rcases List.mem_map.mp hmem with ⟨t, ht, hname⟩
      exact hany (List.any_eq_true.mpr ⟨t, ht, by simp [hname]⟩)
    rw [List.map_append]
    simp [List.nodup_append, h, hnotin]

theorem tagNamesNodup_mergeEdge (s : Store) (pid t : String)
    (h : tagNamesNodup s) : tagNamesNodup (mergeEdge s pid t) := by
  unfold tagNamesNodup
  rw [mergeEdge_tags]
  exact h

theorem tagNamesNodup_addTags (s : Store) (pid : String) (tags : List String)
    (h : tagNamesNodup s) : tagNamesNodup (addTags s pid tags) := by
  induction tags generalizing s with
  | nil => exact h
  | cons a ts ih =>
    rw [addTags_cons]
    exact ih _ (tagNamesNodup_mergeEdge _ _ _ (tagNamesNodup_mergeTag _ _ h))

theorem tagNamesNodup_createPromptTx (s : Store) (pid text : String)
    (source : Option String) (tags : List String) (h : tagNamesNodup s) :
    tagNamesNodup (createPromptTx s pid text source tags).1 := by
  apply tagNamesNodup_addTags
  exact h

theorem tagNamesNodup_runCreates (s : Store) (ops : List CreateOp)
    (h : tagNamesNodup s) : tagNamesNodup (runCreates s ops) := by
  induction ops generalizing s with
  | nil => exact h
  | cons op rest ih =>
    exact ih _ (tagNamesNodup_createPromptTx _ _ _ _ _ h)

/-! ## Lemmas about the create transaction as a whole -/

theorem find?_append_of_none {α : Type} (l1 l2 : List α) (p : α → Bool)
    (h : l1.find? p = none) : (l1 ++ l2).find? p = l2.find? p := by
  induction l1 with
  | nil => rfl
  | cons x xs ih =>
    rw [List.find?_eq_none] at h
    have hx : p x = false := by
      have hh := h x (List.mem_cons_self x xs)
      simpa using hh
    have hxs : xs.find? p = none := by
      rw [List.find?_eq_none]
      exact fun a ha => h a (List.mem_cons_of_mem x ha)
    simp only [List.cons_append, List.find?_cons, hx]
    exact ih hxs

theorem createPromptTx_prompts (s : Store) (pid text : String)
    (source : Option String) (tags : List String) :
    (createPromptTx s pid text source tags).1.prompts =
      s.prompts ++ [PromptNode.mk pid text source] := by
  show (addTags _ pid tags).prompts = _
  rw [addTags_prompts]

theorem createPromptTx_result (s : Store) (pid text : String)
    (source : Option String) (tags : List String) :
    (createPromptTx s pid text source tags).2 = some pid := rfl

theorem createPromptTx_tag_mem (s : Store) (pid text : String)
    (source : Option String) (tags : List String) {t : String} (h : t ∈ tags) :
    TagNode.mk t ∈ (createPromptTx s pid text source tags).1.tags :=
  addTags_tag_mem _ _ _ h

theorem createPromptTx_edge_mem (s : Store) (pid text : String)
    (source : Option String) (tags : List String) {t : String} (h : t ∈ tags) :
    HasTagEdge.mk pid t ∈ (createPromptTx s pid text source tags).1.edges :=
  addTags_edge_mem _ _ _ h

theorem mem_edges_createPromptTx (s : Store) (pid text : String)
    (source : Option String) (tags : List String) {e : HasTagEdge}
    (h : e ∈ s.edges) : e ∈ (createPromptTx s pid text source tags).1.edges :=
  mem_edges_addTags _ _ _ h

theorem findPrompt_createPromptTx (s : Store) (pid text : String)
    (source : Option String) (tags : List String)
    (h : ∀ p ∈ s.prompts, p.id ≠ pid) :
    findPrompt (createPromptTx s pid text source tags).1 pid =
      some (PromptNode.mk pid text source) := by
  unfold findPrompt
  rw [createPromptTx_prompts]
  rw [find?_append_of_none]
  · simp [List.find?]
  · rw [List.find?_eq_none]
    intro p hp
    simp only [beq_iff_eq, Bool.not_eq_true]
    exact h p hp

theorem collectTagNames_createPromptTx (s : Store) (pid text : String)
    (source : Option String) (tags : List String) (x : String) :
    x ∈ collectTagNames (createPromptTx s pid text source tags).1 pid ↔
      x ∈ collectTagNames s pid ∨ x ∈ tags := by
  show x ∈ collectTagNames (addTags _ pid tags) pid ↔ _
  rw [mem_collectTagNames_addTags]
  rfl

theorem nodup_collectTagNames_createPromptTx (s : Store) (pid text : String)
    (source : Option String) (tags : List String)
    (h : (collectTagNames s pid).Nodup) :
    (collectTagNames (createPromptTx s pid text source tags).1 pid).Nodup := by
  exact nodup_collectTagNames_addTags _ _ _ h

theorem collectTagNames_empty_of_no_edge (s : Store) (pid : String)
    (h : ∀ e ∈ s.edges, e.promptId ≠ pid) : collectTagNames s pid = [] := by
  unfold collectTagNames
  rw [List.filter_eq_nil_iff.mpr, List.map_nil]
  intro e he
  simp only [beq_iff_eq, Bool.not_eq_true]
  exact h e he

/-! ## Lemmas about the index flag and the search path -/

theorem ensureIndex_prompts (s : Store) : (ensureIndex s).prompts = s.prompts := by
  unfold ensureIndex; split <;> rfl

theorem ensureIndex_indexExists (s : Store) :
    (ensureIndex s).indexExists = true := by
  unfold ensureIndex
  split
  · next h => exact h
  · rfl

theorem ensureIndex_of_indexExists (s : Store) (h : s.indexExists = true) :
    ensureIndex s = s := by
  unfold ensureIndex
  rw [if_pos h]

theorem searchPromptsTx_store (s : Store) (q : String) :
    (searchPromptsTx s q).1 = ensureIndex s := rfl

theorem searchPromptsTx_results (s : Store) (q : String) :
    (searchPromptsTx s q).2 =
      ((List.insertionSort rowGE (queryNodes (ensureIndex s) q)).take 10).map
        (fun r => SearchResult.mk r.node.id r.node.text r.node.source r.score) := rfl

/-! ## Lemmas about request dispatch -/

theorem dispatch_get_pair (a b : String) :
    dispatch Method.get [a, b] =
      if a = "prompts" then some Handler.getPrompt else none := by
  by_cases h : a = "prompts"
  · subst h
    rw [if_pos rfl]
    rfl
  · rw [if_neg h]
    have hne : ("prompts" == a) = false :=
      beq_eq_false_iff_ne.mpr (fun hc => h hc.symm)
    simp [dispatch, routeTable, getPromptPattern, List.find?, matchPath,
      matchSeg, hne]

theorem dispatch_get_nil : dispatch Method.get [] = none := rfl

theorem dispatch_get_single (a : String) : dispatch Method.get [a] = none := by
  have hpost : (Method.post == Method.get) = false := rfl
  simp [dispatch, routeTable, getPromptPattern, List.find?, matchPath, matchSeg,
    hpost]

theorem dispatch_get_long (a b c : String) (rest : List String) :
    dispatch Method.get (a :: b :: c :: rest) = none := by
  simp [dispatch, routeTable, getPromptPattern, List.find?, matchPath, matchSeg]

theorem dispatch_get_ne_search (path : List String) :
    dispatch Method.get path ≠ some Handler.searchPrompts := by
  match path with
  | [] =>
    intro hc
    rw [dispatch_get_nil] at hc
    cases hc
  | [a] =>
    intro hc
    rw [dispatch_get_single] at hc
    cases hc
  | [a, b] =>
    intro hc
    rw [dispatch_get_pair] at hc
    by_cases h : a = "prompts"
    · rw [if_pos h] at hc
      simp at hc
    · rw [if_neg h] at hc
      cases hc
  | a :: b :: c :: rest =>
    intro hc
    rw [dispatch_get_long] at hc
    cases hc

theorem getPromptTx_eq_none (s : Store) (pid : String)
    (h : ∀ p ∈ s.prompts, p.id ≠ pid) : getPromptTx s pid = none := by
  have hf : s.prompts.find? (fun p => p.id == pid) = none := by
    rw [List.find?_eq_none]
    intro p hp
    simpa using h p hp
  simp [getPromptTx, findPrompt, hf]

/-! ## Claim theorems -/

/-- Claim C1: creating a prompt with `_create_prompt` and reading the
returned id back with `_get_prompt` yields a record with the same text and
source, whose tag list is duplicate-free and holds exactly the distinct
strings of the input tag list.  The hypotheses say that the generated id
is fresh, which the writer guarantees by generating a fresh UUID. -/
theorem create_get_round_trip (s : Store) (pid text : String)
    (source : Option String) (tags : List String)
    (h1 : ∀ p ∈ s.prompts, p.id ≠ pid)
    (h2 : ∀ e ∈ s.edges, e.promptId ≠ pid) :
    ∃ record,
      getPromptTx (createPromptTx s pid text source tags).1 pid = some record ∧
      record.id = pid ∧ record.text = text ∧ record.source = source ∧
      record.tags.Nodup ∧ (∀ t, t ∈ record.tags ↔ t ∈ tags) := by
  have hfind := findPrompt_createPromptTx s pid text source tags h1
  have hempty := collectTagNames_empty_of_no_edge s pid h2
  refine ⟨⟨pid, text, source,
    collectTagNames (createPromptTx s pid text source tags).1 pid⟩,
    ?_, rfl, rfl, rfl, ?_, ?_⟩
  · simp [getPromptTx, hfind]
  · apply nodup_collectTagNames_createPromptTx
    rw [hempty]
    exact List.nodup_nil
  · intro t
    rw [collectTagNames_createPromptTx, hempty]
    simp

/-- Witness for C1: a concrete round trip through an empty store with a
duplicated input tag. -/
theorem create_get_round_trip_witness :
    ∃ record,
      getPromptTx (createPromptTx emptyStore "p1" "robot story" (some "user")
        ["story", "robot", "story"]).1 "p1" = some record ∧
      record.id = "p1" ∧ record.text = "robot story" ∧
      record.source = some "user" ∧ record.tags.Nodup ∧
      (∀ t, t ∈ record.tags ↔ t ∈ ["story", "robot", "story"]) :=
  create_get_round_trip emptyStore "p1" "robot story" (some "user")
    ["story", "robot", "story"] (by simp [emptyStore]) (by simp [emptyStore])

/-- Claim C2: because the GET route for /prompts/\x7bprompt_id\x7d is
registered before the GET route for /prompts/search, a GET request to the
path /prompts/search is dispatched to the get-by-id handler with the
parameter bound to the literal string "search", the search handler is
unreachable at its path, and on a store holding no prompt with id "search"
the response is the 404 not-found error. -/
theorem search_path_dispatched_to_get_handler (s : Store)
    (h : ∀ p ∈ s.prompts, p.id ≠ "search") :
    dispatch Method.get ["prompts", "search"] = some Handler.getPrompt ∧
    extractParam getPromptPattern ["prompts", "search"] = some "search" ∧
    (∀ path, dispatch Method.get path ≠ some Handler.searchPrompts) ∧
    (getPromptEndpoint s "search").response =
      Except.error (Failure.notFound "Prompt not found") := by
  refine ⟨?_, rfl, dispatch_get_ne_search, ?_⟩
  · rw [dispatch_get_pair]
    rfl
  · simp [getPromptEndpoint, getPromptTx_eq_none s "search" h]

/-- Witness for C2: the dispatch facts at the empty store. -/
theorem search_path_dispatched_to_get_handler_witness :
    dispatch Method.get ["prompts", "search"] = some Handler.getPrompt ∧
    extractParam getPromptPattern ["prompts", "search"] = some "search" ∧
    (∀ path, dispatch Method.get path ≠ some Handler.searchPrompts) ∧
    (getPromptEndpoint emptyStore "search").response =
      Except.error (Failure.notFound "Prompt not found") :=
  search_path_dispatched_to_get_handler emptyStore (by simp [emptyStore])

/-- Claim C3: the search transaction returns at most 10 results — exactly
the minimum of 10 and the number of matching nodes — ordered by
non-increasing relevance score, and every row the 10-row limit cuts off
scores no higher than every returned row. -/
theorem search_cap_and_order (s : Store) (q : String) :
    (searchPromptsTx s q).2.length ≤ 10 ∧
    (searchPromptsTx s q).2.length = min 10 (queryNodes (ensureIndex s) q).length ∧
    (searchPromptsTx s q).2.Pairwise (fun a b => b.score ≤ a.score) ∧
    (∀ a ∈ (List.insertionSort rowGE (queryNodes (ensureIndex s) q)).take 10,
     ∀ b ∈ (List.insertionSort rowGE (queryNodes (ensureIndex s) q)).drop 10,
       b.score ≤ a.score) := by
  have hsorted : (List.insertionSort rowGE (queryNodes (ensureIndex s) q)).Pairwise rowGE :=
    List.sorted_insertionSort rowGE (queryNodes (ensureIndex s) q)
  have hlen : (searchPromptsTx s q).2.length =
      min 10 (queryNodes (ensureIndex s) q).length := by
    rw [searchPromptsTx_results, List.length_map, List.length_take,
      (List.perm_insertionSort rowGE (queryNodes (ensureIndex s) q)).length_eq]
  refine ⟨?_, hlen, ?_, ?_⟩
  · rw [hlen]
    exact min_le_left _ _
  · rw [searchPromptsTx_results, List.pairwise_map]
    exact (hsorted.sublist (List.take_sublist 10 _))
  · have := List.pairwise_append.mp
      (by rwa [List.take_append_drop] :
        ((List.insertionSort rowGE (queryNodes (ensureIndex s) q)).take 10 ++
         (List.insertionSort rowGE (queryNodes (ensureIndex s) q)).drop 10).Pairwise rowGE)
    exact this.2.2

/-- Claim C4: searching with the empty query string, or with a query whose
relevance score is zero on every stored prompt, returns the empty list;
the search transaction is a total function, so no error is raised. -/
theorem search_empty_or_no_match (s : Store) (q : String)
    (h : q = "" ∨ ∀ p ∈ s.prompts, ftScore q p.text = 0) :
    (searchPromptsTx s q).2 = [] := by
  have hq : queryNodes (ensureIndex s) q = [] := by
    unfold queryNodes
    rw [List.filter_eq_nil_iff.mpr, List.map_nil]
    intro p hp
    rcases h with h | h
    · subst h
      have hz : ftScore "" p.text = 0 := rfl
      simp [hz]
    · rw [ensureIndex_prompts] at hp
      simp [h p hp]
  rw [searchPromptsTx_results, hq]
  rfl

/-- Witness for C4: a query matching nothing in a one-prompt store. -/
theorem search_empty_or_no_match_witness :
    (searchPromptsTx (createPromptTx emptyStore "p1" "hello world" none []).1
      "zebra").2 = [] :=
  search_empty_or_no_match _ "zebra" (Or.inr (by decide))

/-- Claim C5, counterexample: a create request whose text field is the
empty string and a search request whose q parameter is the empty string
both pass validation, acquire a session and run a transaction — they are
not rejected before the store interaction, contrary to the claim. -/
theorem empty_input_reaches_store :
    (createPromptEndpoint emptyStore false "p1" ⟨some "", none, none⟩).sessionAcquired
      = true ∧
    (createPromptEndpoint emptyStore false "p1" ⟨some "", none, none⟩).response =
      Except.ok ⟨some "p1"⟩ ∧
    (searchPromptsEndpoint emptyStore (some "")).sessionAcquired = true :=
  ⟨rfl, rfl, rfl⟩

/-- Claim C5, amended: a create request whose required text field is
missing and a search request whose required q parameter is missing are
rejected as client-error conditions before any store interaction — no
session is acquired and the store is untouched. -/
theorem missing_input_rejected_before_store (s : Store) (fail : Bool)
    (pid : String) (payload : CreatePayload) (hmiss : payload.text = none) :
    (createPromptEndpoint s fail pid payload).sessionAcquired = false ∧
    (createPromptEndpoint s fail pid payload).response =
      Except.error Failure.validation ∧
    (createPromptEndpoint s fail pid payload).store = s ∧
    (searchPromptsEndpoint s none).sessionAcquired = false ∧
    (searchPromptsEndpoint s none).response = Except.error Failure.validation ∧
    (searchPromptsEndpoint s none).store = s := by
  have hv : validatePromptCreate payload = none := by
    simp [validatePromptCreate, hmiss]
  simp [createPromptEndpoint, hv, searchPromptsEndpoint]

/-- Witness for the amended C5: the missing-field requests at the empty
store. -/
theorem missing_input_rejected_before_store_witness :
    (createPromptEndpoint emptyStore false "p1" ⟨none, none, none⟩).sessionAcquired
      = false ∧
    (createPromptEndpoint emptyStore false "p1" ⟨none, none, none⟩).response =
      Except.error Failure.validation ∧
    (createPromptEndpoint emptyStore false "p1" ⟨none, none, none⟩).store
      = emptyStore ∧
    (searchPromptsEndpoint emptyStore none).sessionAcquired = false ∧
    (searchPromptsEndpoint emptyStore none).response =
      Except.error Failure.validation ∧
    (searchPromptsEndpoint emptyStore none).store = emptyStore :=
  missing_input_rejected_before_store emptyStore false "p1" ⟨none, none, none⟩ rfl

/-- Claim C6: a create call either commits the Prompt node, all its Tag
nodes and all its HAS_TAG edges together — and answers with the generated
id — or, when the backend transaction fails, commits nothing, leaves the
store unchanged and propagates the failure to the caller. -/
theorem create_write_atomicity (s : Store) (fail : Bool) (pid text : String)
    (source : Option String) (tags : List String) :
    createPromptEndpoint s fail pid ⟨some text, source, some tags⟩ =
      (if fail then
        Outcome.mk (Except.error Failure.storeFailure) s true
      else
        Outcome.mk (Except.ok ⟨some pid⟩)
          (createPromptTx s pid text source tags).1 true) ∧
    PromptNode.mk pid text source ∈ (createPromptTx s pid text source tags).1.prompts ∧
    (∀ t ∈ tags,
      TagNode.mk t ∈ (createPromptTx s pid text source tags).1.tags ∧
      HasTagEdge.mk pid t ∈ (createPromptTx s pid text source tags).1.edges) := by
  refine ⟨?_, ?_, ?_⟩
  · cases fail <;> rfl
  · rw [createPromptTx_prompts]
    simp
  · intro t ht
    exact ⟨createPromptTx_tag_mem _ _ _ _ _ ht,
      createPromptTx_edge_mem _ _ _ _ _ ht⟩

/-- Witness for C6: a concrete create with one tag, on both sides of the
fail flag. -/
theorem create_write_atomicity_witness :
    (createPromptEndpoint emptyStore true "p1" ⟨some "txt", none, some ["a"]⟩ =
      Outcome.mk (Except.error Failure.storeFailure) emptyStore true) ∧
    (createPromptEndpoint emptyStore false "p1" ⟨some "txt", none, some ["a"]⟩ =
      Outcome.mk (Except.ok ⟨some "p1"⟩)
        (createPromptTx emptyStore "p1" "txt" none ["a"]).1 true) ∧
    TagNode.mk "a" ∈ (createPromptTx emptyStore "p1" "txt" none ["a"]).1.tags := by
  have h1 := create_write_atomicity emptyStore true "p1" "txt" none ["a"]
  have h2 := create_write_atomicity emptyStore false "p1" "txt" none ["a"]
  refine ⟨by simpa using h1.1, by simpa using h2.1, (h2.2.2 "a" (by simp)).1⟩

/-- Claim C7: tag names stay unique among Tag nodes across every sequence
of create operations, and two creates sharing a tag name leave exactly one
Tag node with that name, with a HAS_TAG edge from each of the two new
prompts to it. -/
theorem tag_merge_idempotence (s : Store) (ops : List CreateOp)
    (op1 op2 : CreateOp) (t : String) (hnd : tagNamesNodup s)
    (h1 : t ∈ op1.tags) (h2 : t ∈ op2.tags) :
    tagNamesNodup (runCreates s ops) ∧
    ((runCreates s [op1, op2]).tags.map TagNode.name).count t = 1 ∧
    HasTagEdge.mk op1.pid t ∈ (runCreates s [op1, op2]).edges ∧
    HasTagEdge.mk op2.pid t ∈ (runCreates s [op1, op2]).edges := by
  have hs2 : runCreates s [op1, op2] =
      (createPromptTx (createPromptTx s op1.pid op1.text op1.source op1.tags).1
        op2.pid op2.text op2.source op2.tags).1 := rfl
  have hnd2 : tagNamesNodup (runCreates s [op1, op2]) := by
    rw [hs2]
    exact tagNamesNodup_createPromptTx _ _ _ _ _
      (tagNamesNodup_createPromptTx _ _ _ _ _ hnd)
  have hmem : TagNode.mk t ∈ (runCreates s [op1, op2]).tags := by
    rw [hs2]
    exact createPromptTx_tag_mem _ _ _ _ _ h2
  refine ⟨tagNamesNodup_runCreates s ops hnd, ?_, ?_, ?_⟩
  · exact List.count_eq_one_of_mem hnd2 (List.mem_map.mpr ⟨_, hmem, rfl⟩)
  · rw [hs2]
    exact mem_edges_createPromptTx _ _ _ _ _
      (createPromptTx_edge_mem _ _ _ _ _ h1)
  · rw [hs2]
    exact createPromptTx_edge_mem _ _ _ _ _ h2

/-- Witness for C7: two concrete creates sharing the tag name "shared". -/
theorem tag_merge_idempotence_witness :
    tagNamesNodup (runCreates emptyStore []) ∧
    ((runCreates emptyStore
      [⟨"p1", "t1", none, ["shared"]⟩, ⟨"p2", "t2", none, ["shared"]⟩]).tags.map
        TagNode.name).count "shared" = 1 ∧
    HasTagEdge.mk "p1" "shared" ∈ (runCreates emptyStore
      [⟨"p1", "t1", none, ["shared"]⟩, ⟨"p2", "t2", none, ["shared"]⟩]).edges ∧
    HasTagEdge.mk "p2" "shared" ∈ (runCreates emptyStore
      [⟨"p1", "t1", none, ["shared"]⟩, ⟨"p2", "t2", none, ["shared"]⟩]).edges :=
  tag_merge_idempotence emptyStore [] ⟨"p1", "t1", none, ["shared"]⟩
    ⟨"p2", "t2", none, ["shared"]⟩ "shared"
    (by simp [tagNamesNodup, emptyStore]) (by simp) (by simp)

/-- Claim C8: every search leaves the full-text index existing, ensuring
the index on a store that already has it is a no-op rather than an error,
so a second search in succession finds the index present and changes
nothing about the store. -/
theorem index_bootstrap_idempotent (s : Store) (q1 q2 : String) :
    (searchPromptsTx s q1).1.indexExists = true ∧
    ensureIndex (searchPromptsTx s q1).1 = (searchPromptsTx s q1).1 ∧
    (searchPromptsTx (searchPromptsTx s q1).1 q2).1 = (searchPromptsTx s q1).1 := by
  have h1 : (searchPromptsTx s q1).1.indexExists = true := by
    rw [searchPromptsTx_store]
    exact ensureIndex_indexExists s
  refine ⟨h1, ensureIndex_of_indexExists _ h1, ?_⟩
  rw [searchPromptsTx_store]
  exact ensureIndex_of_indexExists _ h1

/-- Claim C9: a read of an id held by no Prompt node returns none from the
transaction function — an absent signal, not an error — and the endpoint
translates that into the 404 not-found response. -/
theorem get_not_found (s : Store) (pid : String)
    (h : ∀ p ∈ s.prompts, p.id ≠ pid) :
    getPromptTx s pid = none ∧
    (getPromptEndpoint s pid).response =
      Except.error (Failure.notFound "Prompt not found") := by
  have h0 := getPromptTx_eq_none s pid h
  exact ⟨h0, by simp [getPromptEndpoint, h0]⟩

/-- Witness for C9: a get with a never-issued id at the empty store. -/
theorem get_not_found_witness :
    getPromptTx emptyStore "missing" = none ∧
    (getPromptEndpoint emptyStore "missing").response =
      Except.error (Failure.notFound "Prompt not found") :=
  get_not_found emptyStore "missing" (by simp [emptyStore])

/-- Claim C10: when the create query yields no result record, the
transaction function returns None without raising, and the handler's
response assembly turns that into a success response whose id field is
null. -/
theorem null_id_on_empty_query_result :
    createTxResult [] = none ∧
    createResponseOf (createTxResult []) = Except.ok ⟨none⟩ :=
  ⟨rfl, rfl⟩

end PromptStore
